import Mathlib

/-!
Shallow embedding of the `httpBinaryClient` repository (Go): the streaming
HTTP upload client (`client/client.go`, reproduced inside
`src/client/benchmark_test.go`) and the receiving server handler
(`src/server/server.go`).

Modelling conventions:
- Go `error` values are their rendered message strings; `fmt.Errorf` with
  `%w`/`%s`/`%v` is string concatenation, which preserves the wrapped
  message as a contiguous substring (this is exactly what the code's own
  `strings.Contains`-based classifier observes).
- Machine integers are `Nat`/`Int`; byte slices are `List Nat`; `float64`
  percentage arithmetic is modelled exactly in `ℚ` (the code computes
  `float64(bytes)/float64(total)*100`; we keep the same formula).
- External effects (file open/stat, multipart field creation, the HTTP
  round trip, context cancellation observations) are inputs supplied by
  environment records; the control flow over those inputs is translated
  statement by statement from the source.
-/

/-- `strings.Contains`-style substring test on character lists:
`hasSubList n h = true` iff `n` occurs contiguously inside `h`. -/
def hasSubList (n : List Char) : List Char → Bool
  | [] => n.isEmpty
  | c :: rest => n.isPrefixOf (c :: rest) || hasSubList n rest

/-- Substring test on strings, as Go's `strings.Contains`. -/
def hasSub (needle hay : String) : Bool :=
  hasSubList needle.data hay.data

/-- Fuel-driven chunking: split a byte list into successive chunks of size
`b`, as the `file.Read(buffer)` loop with a `b`-byte buffer yields them.
Structural recursion on the fuel keeps it kernel-reducible. -/
def toChunksAux (b : Nat) : Nat → List Nat → List (List Nat)
  | 0, _ => []
  | fuel + 1, l => if l.isEmpty then [] else l.take b :: toChunksAux b fuel (l.drop b)

/-- The chunk sequence read by a loop with buffer size `b` over contents `l`.
For `b = 0` Go's `Read` on an empty buffer returns `(0, nil)` forever and
the loop never terminates; the model returns no chunks in that degenerate
case (no claim exercises `b = 0`). -/
def toChunks (b : Nat) (l : List Nat) : List (List Nat) :=
  if b = 0 then [] else toChunksAux b l.length l

/-- Concatenate chunks back into the byte stream they came from. -/
def flatChunks : List (List Nat) → List Nat
  | [] => []
  | c :: rest => c ++ flatChunks rest

/-! ## Client data model (`client/client.go`) -/

/-- One invocation of the `ProgressCallback`: cumulative bytes, total size,
and the percentage the code computes as `float64(bytes)/float64(total)*100`
(modelled exactly in `ℚ`). -/
structure ProgressEvent where
  bytesTransferred : Nat
  totalBytes : Nat
  percentage : ℚ
deriving DecidableEq

/-- `ClientConfig`: buffer size, concurrency bound, timeout, retry count and
delay. Durations are opaque nanosecond counts; only `bufferSize`,
`maxConcurrency` and `retryAttempts` drive control flow in the model. -/
structure ClientConfig where
  bufferSize : Nat
  maxConcurrency : Nat
  timeoutNs : Nat
  retryAttempts : Nat
  retryDelayNs : Nat
deriving DecidableEq

/-- Message of `ctx.Err()` for a cancelled context. -/
def ctxCanceledMsg : String := "context canceled"

/-- Environment of the producer goroutine inside `uploadFileOnce`:
whether `ctx.Done()` is observed at a given loop iteration, and whether
`file.Read` / `part.Write` fail there (with the underlying message). -/
structure ProducerEnv where
  cancelAt : Nat → Bool
  readErr : Nat → Option String
  writeErr : Nat → Option String

/-- The producer goroutine's chunk loop. Iteration `iter` first checks the
`select` on `ctx.Done()`, then reads (a read error yields `(0, err)` as
`os.File` does), then writes the chunk (`part.Write`), accumulates
`bytesTransferred`, and invokes the progress callback. An empty remaining
stream means `Read` returns `(0, io.EOF)` and the loop ends successfully.
Returns the value sent on `done` (`none` = success) and the emitted
progress events. -/
def producerLoop (env : ProducerEnv) (total : Nat) :
    List (List Nat) → Nat → Nat → Option String × List ProgressEvent
  | chunks, iter, acc =>
    if env.cancelAt iter then (some ctxCanceledMsg, [])
    else
      match env.readErr iter with
      | some m => (some ("ошибка чтения файла: " ++ m), [])
      | none =>
        match chunks with
        | [] => (none, [])
        | chunk :: rest =>
          match env.writeErr iter with
          | some m => (some ("ошибка записи в pipe: " ++ m), [])
          | none =>
            let acc' := acc + chunk.length
            let ev : ProgressEvent :=
              ⟨acc', total, (acc' : ℚ) / (total : ℚ) * 100⟩
            let out := producerLoop env total rest (iter + 1) acc'
            (out.1, ev :: out.2)

/-- An HTTP response as `uploadFileOnce` observes it: numeric status code,
`resp.Status` text, and the response body read on the error path. -/
structure Resp where
  status : Nat
  statusText : String
  body : String
deriving DecidableEq

/-- Environment of one `uploadFileOnce` call: outcomes of `os.Open`,
`file.Stat`, `CreateFormFile`, `http.NewRequestWithContext`,
`c.client.Do`, plus the producer goroutine's environment. -/
structure OnceEnv where
  openRes : Except String (List Nat)
  statErr : Option String
  createFormErr : Option String
  producer : ProducerEnv
  reqErr : Option String
  doRes : Except String Resp

/-- Result of one `uploadFileOnce` call: the returned error (`.ok ()` means
`nil`), the progress events emitted, and whether the attempt reached the
network call (`c.client.Do`). -/
structure OnceOut where
  result : Except String Unit
  events : List ProgressEvent
  netCalled : Bool

/-- The error message built for a non-200 response, embedding the
response body: `сервер вернул ошибку: %s, статус: %d, тело: %s`. -/
def serverErrMsg (resp : Resp) : String :=
  "сервер вернул ошибку: " ++ resp.statusText ++ ", статус: " ++
    toString resp.status ++ ", тело: " ++ resp.body

/-- The producer goroutine: `CreateFormFile` first (failure is sent on
`done` as `ошибка создания поля формы`), then the chunk loop over the file
contents split by `cfg.bufferSize`. -/
def runProducer (cfg : ClientConfig) (env : OnceEnv) (contents : List Nat) :
    Option String × List ProgressEvent :=
  match env.createFormErr with
  | some m => (some ("ошибка создания поля формы: " ++ m), [])
  | none => producerLoop env.producer contents.length
      (toChunks cfg.bufferSize contents) 0 0

/-- `uploadFileOnce`: open the file, stat it, reject a zero-size file,
start the producer, build and issue the HTTP request, wait for the
producer's `done` value, then check the status code. Translated branch by
branch from the source; `netCalled` records whether `c.client.Do` ran. -/
def uploadFileOnce (cfg : ClientConfig) (env : OnceEnv) : OnceOut :=
  match env.openRes with
  | .error e => ⟨.error ("ошибка открытия файла: " ++ e), [], false⟩
  | .ok contents =>
    match env.statErr with
    | some e => ⟨.error ("ошибка получения информации о файле: " ++ e), [], false⟩
    | none =>
      if contents.length = 0 then ⟨.error "файл пустой", [], false⟩
      else
        let prod := runProducer cfg env contents
        match env.reqErr with
        | some e => ⟨.error ("ошибка создания HTTP запроса: " ++ e), [], false⟩
        | none =>
          match env.doRes with
          | .error e => ⟨.error ("ошибка выполнения HTTP запроса: " ++ e), prod.2, true⟩
          | .ok resp =>
            match prod.1 with
            | some werr => ⟨.error werr, prod.2, true⟩
            | none =>
              if resp.status ≠ 200 then ⟨.error (serverErrMsg resp), prod.2, true⟩
              else ⟨.ok (), prod.2, true⟩

/-- `isPermanentError`: substring match of the rendered error message
against the fixed marker list. -/
def isPermanentError (e : String) : Bool :=
  [ "ошибка открытия файла",
    "файл пустой",
    "ошибка создания поля формы",
    "ошибка чтения файла",
    "ошибка записи в pipe" ].any (fun m => hasSub m e)

/-- The attempt-count-annotated error `UploadFile` returns after the retry
loop ends without success: `загрузка не удалась после %d попыток,
последняя ошибка: %w` with `%d` = `c.config.RetryAttempts + 1`. -/
def exhaustedMsg (cfg : ClientConfig) (lastErr : String) : String :=
  "загрузка не удалась после " ++ toString (cfg.retryAttempts + 1) ++
    " попыток, последняя ошибка: " ++ lastErr

/-- Environment of one `UploadFile` call: whether `ctx.Done()` wins the
`select` at the semaphore acquire, whether it wins the `select` at the
inter-attempt delay before attempt `k` (checked only for `k > 0`), and the
per-attempt environments. -/
structure UploadEnv where
  cancelAtAcquire : Bool
  cancelAtDelay : Nat → Bool
  attempts : Nat → OnceEnv

/-- Accumulated observation of the retry loop: final result, number of
`uploadFileOnce` invocations actually made, and how many of them reached
the network. -/
structure LoopOut where
  result : Except String Unit
  attemptsMade : Nat
  netCalls : Nat

/-- The `for attempt := 0; attempt <= c.config.RetryAttempts; attempt++`
loop of `UploadFile`. `k` is the current attempt index, `remaining` the
number of loop iterations left (`retryAttempts + 1` at the start),
`lastErr` the Go `lastErr` variable. Falling out of the loop — by
exhaustion or by the `break` on a permanent classification — returns the
`exhaustedMsg` wrapper around `lastErr`. -/
def uploadLoop (cfg : ClientConfig) (env : UploadEnv) (k : Nat) :
    Nat → String → LoopOut
  | 0, lastErr => ⟨.error (exhaustedMsg cfg lastErr), 0, 0⟩
  | remaining + 1, _lastErr =>
    if 0 < k ∧ env.cancelAtDelay k then ⟨.error ctxCanceledMsg, 0, 0⟩
    else
      let out := uploadFileOnce cfg (env.attempts k)
      let net := if out.netCalled then 1 else 0
      match out.result with
      | .ok _ => ⟨.ok (), 1, net⟩
      | .error e =>
        if isPermanentError e then ⟨.error (exhaustedMsg cfg e), 1, net⟩
        else
          let rest := uploadLoop cfg env (k + 1) remaining e
          ⟨rest.result, rest.attemptsMade + 1, rest.netCalls + net⟩

/-- Result of one `UploadFile` call, with the resource observations the
claims are about: whether a semaphore slot was consumed during the call,
how many attempts ran, how many reached the network. -/
structure UploadOut where
  result : Except String Unit
  slotAcquired : Bool
  attemptsMade : Nat
  netCalls : Nat

/-- `UploadFile`: first the `select` acquiring the semaphore (cancellation
there returns `ctx.Err()` without consuming a slot), then the retry loop;
the slot is held for the whole loop and released on return. -/
def uploadFile (cfg : ClientConfig) (env : UploadEnv) : UploadOut :=
  if env.cancelAtAcquire then ⟨.error ctxCanceledMsg, false, 0, 0⟩
  else
    let l := uploadLoop cfg env 0 (cfg.retryAttempts + 1) ""
    ⟨l.result, true, l.attemptsMade, l.netCalls⟩

/-! ## Batch orchestrator (`UploadMultipleFiles`) -/

/-- `strings.Join(parts, sep)`. -/
def goJoin (sep : String) : List String → String
  | [] => ""
  | [s] => s
  | s :: t :: rest => s ++ sep ++ goJoin sep (t :: rest)

/-- `UploadMultipleFiles` under an external scheduler that delivers the
per-file error-channel sends in input order (the set of collected errors
is scheduler-independent because the channel has capacity `len(files)` and
nothing cancels the context before `wg.Wait`): reject an empty list, run
every file to its own `UploadFile` outcome, wrap each failure as
`ошибка загрузки файла %s: %w`, and aggregate all failures into one
`ошибки при загрузке файлов` error joined by `"; "`. -/
def uploadMultipleFiles (outcome : String → Except String Unit)
    (files : List String) : Except String Unit :=
  if files.isEmpty then .error "список файлов пуст"
  else
    let allErrors := files.filterMap (fun f =>
      match outcome f with
      | .error e => some ("ошибка загрузки файла " ++ f ++ ": " ++ e)
      | .ok _ => none)
    if allErrors.isEmpty then .ok ()
    else .error ("ошибки при загрузке файлов: " ++ goJoin "; " allErrors)

/-! ## Receiving handler (`server/server.go`) -/

/-- The `file` form field as `r.FormFile("file")` returns it: client-sent
filename, the decoded content bytes, and the multipart header's size. -/
structure FilePart where
  filename : String
  content : List Nat
  declaredSize : Int

/-- Environment of one `handleUpload` call. I/O outcomes of each step;
`readErr`/`writeErr` give the mid-stream failure (if any) at a given
iteration of the copy loop. -/
structure ServerReq where
  method : String
  parseErr : Option String
  formFile : Except String FilePart
  mkdirErr : Option String
  createErr : Option String
  contentLength : Int
  readErr : Nat → Option String
  writeErr : Nat → Option String

/-- Outcome of the server's copy loop: the 500-class message if a read or
write failed, and the bytes actually written to the destination file. -/
structure CopyOut where
  err : Option String
  written : List Nat

/-- The server's 64 KiB copy loop: each iteration reads a chunk from the
form file (`file.Read(buffer)`) and writes it to the destination
(`dst.Write`). A read error aborts before any write of that iteration; a
write error aborts with that chunk unwritten; bytes already written stay
written. -/
def serverCopyLoop (rE wE : Nat → Option String) :
    List (List Nat) → Nat → CopyOut
  | chunks, iter =>
    match rE iter with
    | some m => ⟨some ("Ошибка чтения файла: " ++ m), []⟩
    | none =>
      match chunks with
      | [] => ⟨none, []⟩
      | chunk :: rest =>
        match wE iter with
        | some m => ⟨some ("Ошибка записи файла: " ++ m), []⟩
        | none =>
          let out := serverCopyLoop rE wE rest (iter + 1)
          ⟨out.err, chunk ++ out.written⟩

/-- The buffer size of the server's copy loop (`make([]byte, 64*1024)`). -/
def serverChunkSize : Nat := 64 * 1024

/-- Result of `handleUpload`: HTTP status and body written to the
response, whether the destination file was created, and the bytes
persisted in it (never cleaned up on failure). -/
structure ServerOut where
  status : Nat
  body : String
  fileCreated : Bool
  written : List Nat

/-- `handleUpload`, translated branch by branch: 405 on non-POST, 400 on
multipart parse failure or a missing/bad `file` field, 500 on
mkdir/create failure, then the copy loop — a mid-stream read or write
failure answers 500 and leaves the partial file in place; success answers
200 with the confirmation body. (The progress printing is observational,
time-rate-limited and drives no control flow; it is omitted here.) -/
def handleUpload (req : ServerReq) : ServerOut :=
  if req.method ≠ "POST" then ⟨405, "Метод не поддерживается", false, []⟩
  else
    match req.parseErr with
    | some m => ⟨400, "Ошибка парсинга формы: " ++ m, false, []⟩
    | none =>
      match req.formFile with
      | .error m => ⟨400, "Ошибка получения файла: " ++ m, false, []⟩
      | .ok part =>
        match req.mkdirErr with
        | some m => ⟨500, "Ошибка создания директории: " ++ m, false, []⟩
        | none =>
          match req.createErr with
          | some m => ⟨500, "Ошибка создания файла: " ++ m, false, []⟩
          | none =>
            let cp := serverCopyLoop req.readErr req.writeErr
              (toChunks serverChunkSize part.content) 0
            match cp.err with
            | some m => ⟨500, m, true, cp.written⟩
            | none =>
              ⟨200, "Файл " ++ part.filename ++ " успешно загружен", true,
                cp.written⟩

/-! ## Concurrency limiter (`sem chan struct\x7b\x7d` of capacity
`MaxConcurrency`) -/

/-- Phase of one session with respect to the semaphore: not yet acquired,
holding a slot, or finished (slot released). -/
inductive Phase
  | waiting
  | holding
  | done
deriving DecidableEq

/-- Number of sessions currently holding a slot. -/
def holdingCount (ps : List Phase) : Nat :=
  ps.countP (fun p => decide (p = Phase.holding))

/-- Interleaving semantics of the buffered-channel semaphore shared by all
sessions of one `HTTPClient`: a session's `c.sem <- struct\x7b\x7d\x7b\x7d`
can complete only while fewer than `cap` slots are held, and `<-c.sem`
releases the slot the session holds. -/
inductive SemStep (cap : Nat) : List Phase → List Phase → Prop
  | acquire (ps : List Phase) (i : Nat) (h : ps[i]? = some Phase.waiting)
      (hc : holdingCount ps < cap) : SemStep cap ps (ps.set i Phase.holding)
  | release (ps : List Phase) (i : Nat) (h : ps[i]? = some Phase.holding) :
      SemStep cap ps (ps.set i Phase.done)

/-- Reachability of a semaphore state from an initial state by
interleaved acquires and releases. -/
inductive SemReach (cap : Nat) (init : List Phase) : List Phase → Prop
  | refl : SemReach cap init init
  | step {s t : List Phase} (hr : SemReach cap init s) (hs : SemStep cap s t) :
      SemReach cap init t

/-! ## Derived observations and concrete environments -/

/-- The message of a failed result (`""` for success); Go callers observe
errors through `err.Error()`. -/
def resultErr : Except String Unit → String
  | .error e => e
  | .ok _ => ""

/-- The error message attempt `k` of an `UploadFile` call would produce. -/
def attemptErr (cfg : ClientConfig) (env : UploadEnv) (k : Nat) : String :=
  resultErr (uploadFileOnce cfg (env.attempts k)).result

/-- Attempt `k` fails (returns a non-nil error). -/
def attemptFails (cfg : ClientConfig) (env : UploadEnv) (k : Nat) : Prop :=
  ∃ e, (uploadFileOnce cfg (env.attempts k)).result = .error e

/-- Attempt `k` fails with an error the classifier calls transient. -/
def attemptTransient (cfg : ClientConfig) (env : UploadEnv) (k : Nat) : Prop :=
  ∃ e, (uploadFileOnce cfg (env.attempts k)).result = .error e ∧
    isPermanentError e = false

/-- Cumulative byte counts after each successive chunk, starting from
`acc` bytes already transferred. -/
def cumSums (acc : Nat) : List Nat → List Nat
  | [] => []
  | n :: rest => (acc + n) :: cumSums (acc + n) rest

/-- The progress events a clean producer run over the given chunks emits:
one per chunk, with cumulative bytes and the percentage formula. -/
def cumEvents (total : Nat) : List (List Nat) → Nat → List ProgressEvent
  | [], _ => []
  | c :: rest, acc =>
    ⟨acc + c.length, total, ((acc + c.length : Nat) : ℚ) / (total : ℚ) * 100⟩ ::
      cumEvents total rest (acc + c.length)

/-- A producer environment in which nothing fails and cancellation never
fires. -/
def cleanProducer : ProducerEnv := ⟨fun _ => false, fun _ => none, fun _ => none⟩

/-- A producer environment whose `ctx.Done()` is already closed when the
chunk loop starts. -/
def cancelProducer : ProducerEnv := ⟨fun _ => true, fun _ => none, fun _ => none⟩

/-- A 200 response. -/
def okResp : Resp := ⟨200, "200 OK", "OK"⟩

/-- A plain 500 response (no classifier marker in the body). -/
def resp500 : Resp := ⟨500, "500 Internal Server Error", "Internal Server Error"⟩

/-- A 500 response whose body happens to contain the classifier's
empty-file marker. -/
def respMarkerBody : Resp := ⟨500, "500 Internal Server Error", "файл пустой"⟩

/-- An attempt environment with the given file contents and response and
no failures anywhere else. -/
def onceWithResp (contents : List Nat) (r : Resp) : OnceEnv :=
  ⟨.ok contents, none, none, cleanProducer, none, .ok r⟩

/-- An upload environment with no cancellation and the same attempt
environment every time. -/
def steadyEnv (o : OnceEnv) : UploadEnv := ⟨false, fun _ => false, fun _ => o⟩

/-- A configuration with `RetryAttempts = r` (64 KiB buffer). -/
def cfgR (r : Nat) : ClientConfig := ⟨65536, 1, 0, r, 0⟩

/-- Upload of a path resolving to a zero-byte file, no cancellation. -/
def zeroFileEnv : UploadEnv := steadyEnv (onceWithResp [] okResp)

/-- Attempt environment in which cancellation fires inside the producer
while the server still answers 200. -/
def cancelOnce : OnceEnv := ⟨.ok [7], none, none, cancelProducer, none, .ok okResp⟩

/-- Upload environment whose cancellation fires while waiting for the
semaphore. -/
def cancelAcqEnv : UploadEnv := ⟨true, fun _ => false, fun _ => onceWithResp [7] okResp⟩

/-- Upload environment whose cancellation is observed at the delay before
attempt 1, after a transient 500 on attempt 0. -/
def cancelDelayEnv : UploadEnv :=
  ⟨false, fun j => j == 1, fun _ => onceWithResp [7] resp500⟩

/-- A two-byte-buffer configuration (`retryAttempts = 0`). -/
def cfgB2 : ClientConfig := ⟨2, 1, 0, 0, 0⟩

/-- A batch outcome in which exactly file `a.bin` fails. -/
def batchOutcomeW : String → Except String Unit :=
  fun f => if f == "a.bin" then .error "boom" else .ok ()

/-- A concrete `file` form field. -/
def partW : FilePart := ⟨"f.bin", [1, 2, 3], 3⟩

/-- Clean POST request delivering `partW`. -/
def reqPostOk : ServerReq :=
  ⟨"POST", none, .ok partW, none, none, 3, fun _ => none, fun _ => none⟩

/-- Same request with a non-POST method. -/
def reqGet : ServerReq :=
  ⟨"GET", none, .ok partW, none, none, 3, fun _ => none, fun _ => none⟩

/-- POST request whose multipart form fails to parse. -/
def reqBadParse : ServerReq :=
  ⟨"POST", some "unexpected EOF", .ok partW, none, none, 3,
    fun _ => none, fun _ => none⟩

/-- POST request lacking the `file` field. -/
def reqNoField : ServerReq :=
  ⟨"POST", none, .error "http: no such file", none, none, 3,
    fun _ => none, fun _ => none⟩

/-- POST request whose destination write fails on the first chunk. -/
def reqWriteFail : ServerReq :=
  ⟨"POST", none, .ok partW, none, none, 3, fun _ => none,
    fun i => if i == 0 then some "no space left on device" else none⟩

/-! ## Library-level lemmas about the embedding -/

theorem hasSubList_iff (n h : List Char) : hasSubList n h = true ↔ n <:+: h := by
  induction h with
  | nil =>
    simp [hasSubList, List.isEmpty_iff]
  | cons c rest ih =>
    simp [hasSubList, List.infix_cons_iff, ih]

theorem hasSub_iff (n h : String) : hasSub n h = true ↔ n.data <:+: h.data :=
  hasSubList_iff n.data h.data

theorem hasSub_sandwich (a n b : String) : hasSub n (a ++ n ++ b) = true := by
  rw [hasSub_iff]
  simp only [String.data_append]
  exact List.infix_append a.data n.data b.data

theorem hasSub_of_infix {n : String} {inner hay : String}
    (hsub : hasSub n inner = true) (hin : inner.data <:+: hay.data) :
    hasSub n hay = true := by
  rw [hasSub_iff] at hsub ⊢
  exact hsub.trans hin

theorem toChunksAux_flat (b : Nat) (hb : 0 < b) :
    ∀ fuel l, l.length ≤ fuel → flatChunks (toChunksAux b fuel l) = l := by
  intro fuel
  induction fuel with
  | zero =>
    intro l hl
    have : l = [] := List.eq_nil_of_length_eq_zero (Nat.le_zero.mp hl)
    simp [this, toChunksAux, flatChunks]
  | succ f ih =>
    intro l hl
    by_cases hnil : l = []
    · simp [hnil, toChunksAux, flatChunks]
    · have hlen : 0 < l.length := List.length_pos.mpr hnil
      have hdrop : (l.drop b).length ≤ f := by
        rw [List.length_drop]
        omega
      simp only [toChunksAux, List.isEmpty_iff, if_neg hnil, flatChunks]
      rw [ih (l.drop b) hdrop, List.take_append_drop]

theorem toChunks_flat (b : Nat) (l : List Nat) (hb : 0 < b) :
    flatChunks (toChunks b l) = l := by
  unfold toChunks
  rw [if_neg (Nat.pos_iff_ne_zero.mp hb)]
  exact toChunksAux_flat b hb l.length l (Nat.le_refl _)

theorem toChunks_ne_nil (b : Nat) (l : List Nat) (hb : 0 < b) (hl : l ≠ []) :
    toChunks b l ≠ [] := by
  intro h
  have := toChunks_flat b l hb
  rw [h] at this
  exact hl (this.symm ▸ rfl)

/-- Sum of chunk lengths equals the length of the flattened stream. -/
theorem flatChunks_length (cs : List (List Nat)) :
    (flatChunks cs).length = (cs.map List.length).sum := by
  induction cs with
  | nil => simp [flatChunks]
  | cons c rest ih => simp [flatChunks, ih]

/-- When no inter-attempt cancellation fires and every attempt fails, the
loop returns the `exhaustedMsg` wrapper around the error of the last
attempt actually made, and makes between 1 and `remaining` attempts. -/
theorem uploadLoop_all_fail (cfg : ClientConfig) (env : UploadEnv)
    (hnc : ∀ j, env.cancelAtDelay j = false)
    (hfail : ∀ i, attemptFails cfg env i) :
    ∀ remaining k lastErr,
      (uploadLoop cfg env k remaining lastErr).attemptsMade ≤ remaining ∧
      ((uploadLoop cfg env k remaining lastErr).attemptsMade = 0 →
        (uploadLoop cfg env k remaining lastErr).result =
          .error (exhaustedMsg cfg lastErr)) ∧
      (0 < (uploadLoop cfg env k remaining lastErr).attemptsMade →
        (uploadLoop cfg env k remaining lastErr).result =
          .error (exhaustedMsg cfg (attemptErr cfg env
            (k + (uploadLoop cfg env k remaining lastErr).attemptsMade - 1)))) ∧
      (0 < remaining → 0 < (uploadLoop cfg env k remaining lastErr).attemptsMade) := by
  intro remaining
  induction remaining with
  | zero =>
    intro k lastErr
    simp [uploadLoop]
  | succ r ih =>
    intro k lastErr
    obtain ⟨e, he⟩ := hfail k
    have herr : attemptErr cfg env k = e := by
      simp [attemptErr, he, resultErr]
    by_cases hp : isPermanentError e = true
    · have ha : (uploadLoop cfg env k (r + 1) lastErr).attemptsMade = 1 := by
        simp [uploadLoop, hnc k, he, hp]
      have hres : (uploadLoop cfg env k (r + 1) lastErr).result =
          .error (exhaustedMsg cfg e) := by
        simp [uploadLoop, hnc k, he, hp]
      refine ⟨by omega, by omega, ?_, by omega⟩
      intro _
      rw [hres, ha]
      simp [herr]
    · have hnp : isPermanentError e = false := by
        simp only [Bool.not_eq_true] at hp
        exact hp
      have hres : (uploadLoop cfg env k (r + 1) lastErr).result =
          (uploadLoop cfg env (k + 1) r e).result := by
        simp [uploadLoop, hnc k, he, hnp]
      have hatt : (uploadLoop cfg env k (r + 1) lastErr).attemptsMade =
          (uploadLoop cfg env (k + 1) r e).attemptsMade + 1 := by
        simp [uploadLoop, hnc k, he, hnp]
      obtain ⟨ih1, ih2, ih3, ih4⟩ := ih (k + 1) e
      refine ⟨by omega, by intro h; omega, ?_, fun _ => by omega⟩
      intro _
      rcases Nat.eq_zero_or_pos (uploadLoop cfg env (k + 1) r e).attemptsMade with hz | hpos
      · rw [hres, ih2 hz, hatt, hz]
        simp [herr]
      · rw [hres, ih3 hpos, hatt]
        have hidx : k + ((uploadLoop cfg env (k + 1) r e).attemptsMade + 1) - 1 =
            k + 1 + (uploadLoop cfg env (k + 1) r e).attemptsMade - 1 := by
          omega
        rw [hidx]

/-- When no inter-attempt cancellation fires and every attempt fails with
a transient classification, the loop uses all of its iterations. -/
theorem uploadLoop_all_transient (cfg : ClientConfig) (env : UploadEnv)
    (hnc : ∀ j, env.cancelAtDelay j = false)
    (htr : ∀ i, attemptTransient cfg env i) :
    ∀ remaining k lastErr,
      (uploadLoop cfg env k remaining lastErr).attemptsMade = remaining := by
  intro remaining
  induction remaining with
  | zero => intro k lastErr; simp [uploadLoop]
  | succ r ih =>
    intro k lastErr
    obtain ⟨e, he, hnp⟩ := htr k
    have hatt : (uploadLoop cfg env k (r + 1) lastErr).attemptsMade =
        (uploadLoop cfg env (k + 1) r e).attemptsMade + 1 := by
      simp [uploadLoop, hnc k, he, hnp]
    rw [hatt, ih]

/-- If the first `j` attempts fail transiently and attempt `j` succeeds
within the budget, the loop returns success after exactly `j + 1`
attempts. -/
theorem uploadLoop_success (cfg : ClientConfig) (env : UploadEnv)
    (hnc : ∀ j, env.cancelAtDelay j = false) :
    ∀ j remaining k lastErr, j < remaining →
      (∀ i, i < j → attemptTransient cfg env (k + i)) →
      (uploadFileOnce cfg (env.attempts (k + j))).result = .ok () →
      (uploadLoop cfg env k remaining lastErr).result = .ok () ∧
      (uploadLoop cfg env k remaining lastErr).attemptsMade = j + 1 := by
  intro j
  induction j with
  | zero =>
    intro remaining k lastErr hlt _ hok
    match remaining, hlt with
    | r + 1, _ =>
      rw [Nat.add_zero] at hok
      constructor <;> simp [uploadLoop, hnc k, hok]
  | succ j ih =>
    intro remaining k lastErr hlt hpre hok
    match remaining, hlt with
    | r + 1, hlt =>
      obtain ⟨e, he, hnp⟩ := by
        have := hpre 0 (Nat.succ_pos j)
        rwa [Nat.add_zero] at this
      have hres : (uploadLoop cfg env k (r + 1) lastErr).result =
          (uploadLoop cfg env (k + 1) r e).result := by
        simp [uploadLoop, hnc k, he, hnp]
      have hatt : (uploadLoop cfg env k (r + 1) lastErr).attemptsMade =
          (uploadLoop cfg env (k + 1) r e).attemptsMade + 1 := by
        simp [uploadLoop, hnc k, he, hnp]
      have hpre' : ∀ i, i < j → attemptTransient cfg env (k + 1 + i) := by
        intro i hi
        have := hpre (i + 1) (Nat.succ_lt_succ hi)
        rwa [show k + (i + 1) = k + 1 + i by omega] at this
      have hok' : (uploadFileOnce cfg (env.attempts (k + 1 + j))).result = .ok () := by
        rwa [show k + (j + 1) = k + 1 + j by omega] at hok
      obtain ⟨r1, r2⟩ := ih r (k + 1) e (by omega) hpre' hok'
      exact ⟨by rw [hres, r1], by rw [hatt, r2]⟩

/-- If the first `j` attempts fail transiently with no cancellation at
their delays, and cancellation is observed at the delay before attempt
`j` (with `k + j > 0`), the loop returns the raw cancellation error and
attempt `j` is never started. -/
theorem uploadLoop_cancel (cfg : ClientConfig) (env : UploadEnv) :
    ∀ j remaining k lastErr, 0 < k + j → j < remaining →
      (∀ i, i < j →
        env.cancelAtDelay (k + i) = false ∧ attemptTransient cfg env (k + i)) →
      env.cancelAtDelay (k + j) = true →
      (uploadLoop cfg env k remaining lastErr).result = .error ctxCanceledMsg ∧
      (uploadLoop cfg env k remaining lastErr).attemptsMade = j := by
  intro j
  induction j with
  | zero =>
    intro remaining k lastErr hpos hlt _ hcan
    match remaining, hlt with
    | r + 1, _ =>
      rw [Nat.add_zero] at hcan
      rw [Nat.add_zero] at hpos
      constructor <;> simp [uploadLoop, hcan, hpos]
  | succ j ih =>
    intro remaining k lastErr _ hlt hpre hcan
    match remaining, hlt with
    | r + 1, hlt =>
      obtain ⟨hnc0, e, he, hnp⟩ := by
        have := hpre 0 (Nat.succ_pos j)
        rwa [Nat.add_zero] at this
      have hres : (uploadLoop cfg env k (r + 1) lastErr).result =
          (uploadLoop cfg env (k + 1) r e).result := by
        simp [uploadLoop, hnc0, he, hnp]
      have hatt : (uploadLoop cfg env k (r + 1) lastErr).attemptsMade =
          (uploadLoop cfg env (k + 1) r e).attemptsMade + 1 := by
        simp [uploadLoop, hnc0, he, hnp]
      have hpre' : ∀ i, i < j →
          env.cancelAtDelay (k + 1 + i) = false ∧ attemptTransient cfg env (k + 1 + i) := by
        intro i hi
        have := hpre (i + 1) (Nat.succ_lt_succ hi)
        rwa [show k + (i + 1) = k + 1 + i by omega] at this
      have hcan' : env.cancelAtDelay (k + 1 + j) = true := by
        rwa [show k + (j + 1) = k + 1 + j by omega] at hcan
      obtain ⟨r1, r2⟩ := ih r (k + 1) e (by omega) (by omega) hpre' hcan'
      exact ⟨by rw [hres, r1], by rw [hatt, r2]⟩

/-- A producer run with no cancellation, no read error and no write error
succeeds and emits exactly the cumulative progress events. -/
theorem producerLoop_clean (env : ProducerEnv) (total : Nat)
    (hc : ∀ i, env.cancelAt i = false)
    (hr : ∀ i, env.readErr i = none)
    (hw : ∀ i, env.writeErr i = none) :
    ∀ chunks iter acc,
      producerLoop env total chunks iter acc = (none, cumEvents total chunks acc) := by
  intro chunks
  induction chunks with
  | nil => intro iter acc; simp [producerLoop, hc, hr, cumEvents]
  | cons c rest ih =>
    intro iter acc
    simp [producerLoop, hc, hr, hw, cumEvents, ih (iter + 1) (acc + c.length)]

/-- Every event in a clean producer run carries the session's total and
the percentage formula of the code. -/
theorem cumEvents_mem (total : Nat) :
    ∀ chunks acc e, e ∈ cumEvents total chunks acc →
      e.totalBytes = total ∧
      e.percentage = (e.bytesTransferred : ℚ) / (total : ℚ) * 100 := by
  intro chunks
  induction chunks with
  | nil => intro acc e he; simp [cumEvents] at he
  | cons c rest ih =>
    intro acc e he
    simp only [cumEvents, List.mem_cons] at he
    rcases he with he | he
    · subst he; exact ⟨rfl, rfl⟩
    · exact ih (acc + c.length) e he

/-- The byte counts of a clean producer run are the cumulative sums of the
chunk lengths. -/
theorem cumEvents_bytes (total : Nat) :
    ∀ chunks acc,
      (cumEvents total chunks acc).map ProgressEvent.bytesTransferred =
        cumSums acc (chunks.map List.length) := by
  intro chunks
  induction chunks with
  | nil => intro acc; simp [cumEvents, cumSums]
  | cons c rest ih => intro acc; simp [cumEvents, cumSums, ih]

/-- The last event of a nonempty clean producer run reports all bytes. -/
theorem cumEvents_getLast (total : Nat) :
    ∀ chunks acc, chunks ≠ [] →
      ∃ ev, (cumEvents total chunks acc).getLast? = some ev ∧
        ev.bytesTransferred = acc + (chunks.map List.length).sum ∧
        ev.totalBytes = total ∧
        ev.percentage = ((acc + (chunks.map List.length).sum : Nat) : ℚ) / (total : ℚ) * 100 := by
  intro chunks
  induction chunks with
  | nil => intro acc h; exact absurd rfl h
  | cons c rest ih =>
    intro acc _
    match rest with
    | [] =>
      refine ⟨⟨acc + c.length, total, ((acc + c.length : Nat) : ℚ) / (total : ℚ) * 100⟩,
        rfl, by simp, rfl, by simp⟩
    | y :: r =>
      obtain ⟨ev, hlast, hb, ht, hp⟩ := ih (acc + c.length) (by simp)
      have hsum : acc + c.length + ((y :: r).map List.length).sum =
          acc + ((c :: y :: r).map List.length).sum := by
        simp
        omega
      refine ⟨ev, ?_, by rw [hb, hsum], ht, by rw [hp, hsum]⟩
      rw [show cumEvents total (c :: y :: r) acc =
          ⟨acc + c.length, total, ((acc + c.length : Nat) : ℚ) / (total : ℚ) * 100⟩ ::
            cumEvents total (y :: r) (acc + c.length) from rfl]
      rw [show cumEvents total (y :: r) (acc + c.length) =
          ⟨acc + c.length + y.length, total,
            ((acc + c.length + y.length : Nat) : ℚ) / (total : ℚ) * 100⟩ ::
            cumEvents total r (acc + c.length + y.length) from rfl] at hlast ⊢
      rw [List.getLast?_cons_cons]
      exact hlast

/-- Each element of a list occurs inside its `strings.Join`. -/
theorem goJoin_mem (sep : String) :
    ∀ l s, s ∈ l → s.data <:+: (goJoin sep l).data := by
  intro l
  induction l with
  | nil => intro s hs; simp at hs
  | cons x rest ih =>
    intro s hs
    match rest, hs with
    | [], hs =>
      have : s = x := by simpa using hs
      subst this
      exact List.infix_refl _
    | y :: r, hs =>
      rcases List.mem_cons.mp hs with hx | hmem
      · subst hx
        show s.data <:+: (s ++ sep ++ goJoin sep (y :: r)).data
        simp only [String.data_append]
        rw [List.append_assoc]
        exact (List.prefix_append s.data _).isInfix
      · have := ih s hmem
        show s.data <:+: (x ++ sep ++ goJoin sep (y :: r)).data
        simp only [String.data_append]
        exact this.trans (List.suffix_append _ _).isInfix

/-- Whatever the copy loop has written is a prefix of the streamed
content: a mid-stream abort leaves a partial prefix in the destination
file and never removes it. -/
theorem serverCopyLoop_written_prefixOf (rE wE : Nat → Option String) :
    ∀ chunks iter, (serverCopyLoop rE wE chunks iter).written <+: flatChunks chunks := by
  intro chunks
  induction chunks with
  | nil =>
    intro iter
    match h : rE iter with
    | some m => simp [serverCopyLoop, h, flatChunks]
    | none => simp [serverCopyLoop, h, flatChunks]
  | cons c rest ih =>
    intro iter
    match h : rE iter with
    | some m => simp [serverCopyLoop, h, flatChunks]
    | none =>
      match h2 : wE iter with
      | some m => simp [serverCopyLoop, h, h2, flatChunks]
      | none =>
        have : (serverCopyLoop rE wE (c :: rest) iter).written =
            c ++ (serverCopyLoop rE wE rest (iter + 1)).written := by
          simp [serverCopyLoop, h, h2]
        rw [this]
        show c ++ _ <+: flatChunks (c :: rest)
        obtain ⟨t, ht⟩ := ih (iter + 1)
        exact ⟨t, by rw [flatChunks, List.append_assoc, ht]⟩

/-- A copy loop in which neither reads nor writes fail persists the whole
stream and reports no error. -/
theorem serverCopyLoop_clean (rE wE : Nat → Option String)
    (hr : ∀ i, rE i = none) (hw : ∀ i, wE i = none) :
    ∀ chunks iter, serverCopyLoop rE wE chunks iter = ⟨none, flatChunks chunks⟩ := by
  intro chunks
  induction chunks with
  | nil => intro iter; simp [serverCopyLoop, hr, flatChunks]
  | cons c rest ih =>
    intro iter
    simp [serverCopyLoop, hr, hw, flatChunks, ih (iter + 1)]

/-- Setting a waiting session to holding raises the holding count by one. -/
theorem holdingCount_set_holding :
    ∀ (ps : List Phase) (i : Nat), ps[i]? = some Phase.waiting →
      holdingCount (ps.set i Phase.holding) = holdingCount ps + 1 := by
  intro ps
  induction ps with
  | nil => intro i h; simp at h
  | cons p rest ih =>
    intro i h
    match i with
    | 0 =>
      have hp : p = Phase.waiting := by simpa using h
      subst hp
      simp [holdingCount, List.countP_cons]
    | i + 1 =>
      have h' : rest[i]? = some Phase.waiting := by simpa using h
      have := ih i h'
      simp only [List.set]
      simp only [holdingCount, List.countP_cons] at this ⊢
      omega

/-- Setting a holding session to done lowers the holding count by one. -/
theorem holdingCount_set_done :
    ∀ (ps : List Phase) (i : Nat), ps[i]? = some Phase.holding →
      holdingCount (ps.set i Phase.done) + 1 = holdingCount ps := by
  intro ps
  induction ps with
  | nil => intro i h; simp at h
  | cons p rest ih =>
    intro i h
    match i with
    | 0 =>
      have hp : p = Phase.holding := by simpa using h
      subst hp
      simp [holdingCount, List.countP_cons]
    | i + 1 =>
      have h' : rest[i]? = some Phase.holding := by simpa using h
      have := ih i h'
      simp only [List.set]
      simp only [holdingCount, List.countP_cons] at this ⊢
      omega

/-- No session of the all-waiting initial state holds a slot. -/
theorem holdingCount_replicate_waiting (n : Nat) :
    holdingCount (List.replicate n Phase.waiting) = 0 := by
  induction n with
  | zero => rfl
  | succ m ih =>
    simp only [List.replicate, holdingCount, List.countP_cons] at ih ⊢
    simp [ih]

/-- The wrapper message always mentions the configured attempt budget
`retryAttempts + 1`. -/
theorem exhaustedMsg_mentions (cfg : ClientConfig) (e : String) :
    hasSub (toString (cfg.retryAttempts + 1)) (exhaustedMsg cfg e) = true := by
  rw [hasSub_iff]
  unfold exhaustedMsg
  simp only [String.data_append]
  rw [List.append_assoc]
  exact List.infix_append _ _ _

/-- The wrapper message contains the wrapped cause verbatim (`%w`). -/
theorem exhaustedMsg_wraps (cfg : ClientConfig) (e : String) :
    hasSub e (exhaustedMsg cfg e) = true := by
  rw [hasSub_iff]
  unfold exhaustedMsg
  simp only [String.data_append]
  exact (List.suffix_append _ _).isInfix

/-- An attempt on a zero-byte file fails with `файл пустой` before the
producer or the network is touched. -/
theorem uploadFileOnce_zero (cfg : ClientConfig) (env : OnceEnv)
    (hopen : env.openRes = .ok []) (hstat : env.statErr = none) :
    uploadFileOnce cfg env = ⟨.error "файл пустой", [], false⟩ := by
  simp [uploadFileOnce, hopen, hstat]

/-- With no cancellation at the acquire, `UploadFile` consumes a slot and
behaves as its retry loop. -/
theorem uploadFile_proj (cfg : ClientConfig) (env : UploadEnv)
    (h : env.cancelAtAcquire = false) :
    (uploadFile cfg env).result = (uploadLoop cfg env 0 (cfg.retryAttempts + 1) "").result ∧
    (uploadFile cfg env).attemptsMade =
      (uploadLoop cfg env 0 (cfg.retryAttempts + 1) "").attemptsMade ∧
    (uploadFile cfg env).slotAcquired = true ∧
    (uploadFile cfg env).netCalls = (uploadLoop cfg env 0 (cfg.retryAttempts + 1) "").netCalls := by
  refine ⟨?_, ?_, ?_, ?_⟩ <;> simp [uploadFile, h]

/-! ## Claim theorems -/

/-- C1, counterexample: a zero-byte upload with no cancellation does fail
with the permanent empty-file classification and makes no network call,
but the concurrency slot HAS been acquired by then — the code takes the
semaphore before its first attempt opens the file, so the rejection does
not happen before a slot is consumed as the claim states. -/
theorem c1_counterexample :
    zeroFileEnv.cancelAtAcquire = false ∧
    (∀ k, (zeroFileEnv.attempts k).openRes = .ok ([] : List Nat)) ∧
    hasSub "файл пустой" (resultErr (uploadFile (cfgR 2) zeroFileEnv).result) = true ∧
    (uploadFile (cfgR 2) zeroFileEnv).netCalls = 0 ∧
    (uploadFile (cfgR 2) zeroFileEnv).slotAcquired = true :=
  ⟨rfl, fun _ => rfl, by decide, by decide, by decide⟩

/-- C1 (amended): uploading a path resolving to a zero-byte file (with no
cancellation) always fails with the permanent empty-file classification
after exactly one attempt and before any network call — but only after
the concurrency slot has been acquired (it is released on return). -/
theorem c1_zero_file_rejected (cfg : ClientConfig) (env : UploadEnv)
    (hacq : env.cancelAtAcquire = false)
    (hopen : (env.attempts 0).openRes = .ok [])
    (hstat : (env.attempts 0).statErr = none) :
    (uploadFile cfg env).result = .error (exhaustedMsg cfg "файл пустой") ∧
    (uploadFile cfg env).attemptsMade = 1 ∧
    (uploadFile cfg env).netCalls = 0 ∧
    (uploadFile cfg env).slotAcquired = true ∧
    isPermanentError "файл пустой" = true := by
  have honce := uploadFileOnce_zero cfg (env.attempts 0) hopen hstat
  have hperm : isPermanentError "файл пустой" = true := by decide
  obtain ⟨p1, p2, p3, p4⟩ := uploadFile_proj cfg env hacq
  have hloop : uploadLoop cfg env 0 (cfg.retryAttempts + 1) "" =
      ⟨.error (exhaustedMsg cfg "файл пустой"), 1, 0⟩ := by
    simp [uploadLoop, honce, hperm]
  rw [p1, p2, p3, p4, hloop]
  exact ⟨rfl, rfl, rfl, rfl, hperm⟩

/-- C1, witness for the amended theorem at a concrete zero-byte upload. -/
theorem c1_witness :
    (uploadFile (cfgR 2) zeroFileEnv).result =
      .error (exhaustedMsg (cfgR 2) "файл пустой") ∧
    (uploadFile (cfgR 2) zeroFileEnv).attemptsMade = 1 ∧
    (uploadFile (cfgR 2) zeroFileEnv).netCalls = 0 ∧
    (uploadFile (cfgR 2) zeroFileEnv).slotAcquired = true ∧
    isPermanentError "файл пустой" = true :=
  c1_zero_file_rejected (cfgR 2) zeroFileEnv rfl rfl rfl

/-- C2: with no cancellation, if every attempt fails transiently then
`UploadFile` makes exactly `retryAttempts + 1` attempts and returns an
error mentioning that count; and if the first `j` attempts fail
transiently and attempt `j ≤ retryAttempts` succeeds, `UploadFile`
returns success (after `j + 1` attempts). -/
theorem c2_retry_behavior (cfg : ClientConfig) (env : UploadEnv)
    (hacq : env.cancelAtAcquire = false)
    (hnc : ∀ j, env.cancelAtDelay j = false) :
    ((∀ i, attemptTransient cfg env i) →
      (uploadFile cfg env).attemptsMade = cfg.retryAttempts + 1 ∧
      ∃ m, (uploadFile cfg env).result = .error m ∧
        hasSub (toString (cfg.retryAttempts + 1)) m = true) ∧
    (∀ j, j ≤ cfg.retryAttempts →
      (∀ i, i < j → attemptTransient cfg env i) →
      (uploadFileOnce cfg (env.attempts j)).result = .ok () →
      (uploadFile cfg env).result = .ok () ∧
      (uploadFile cfg env).attemptsMade = j + 1) := by
  obtain ⟨p1, p2, _, _⟩ := uploadFile_proj cfg env hacq
  constructor
  · intro htr
    have hfail : ∀ i, attemptFails cfg env i := by
      intro i
      obtain ⟨e, he, _⟩ := htr i
      exact ⟨e, he⟩
    have hA := uploadLoop_all_transient cfg env hnc htr (cfg.retryAttempts + 1) 0 ""
    obtain ⟨_, _, hb3, _⟩ :=
      uploadLoop_all_fail cfg env hnc hfail (cfg.retryAttempts + 1) 0 ""
    refine ⟨by rw [p2, hA], ?_⟩
    refine ⟨exhaustedMsg cfg (attemptErr cfg env
      (0 + (uploadLoop cfg env 0 (cfg.retryAttempts + 1) "").attemptsMade - 1)), ?_, ?_⟩
    · rw [p1]
      exact hb3 (by rw [hA]; omega)
    · exact exhaustedMsg_mentions cfg _
  · intro j hj hpre hok
    have hpre' : ∀ i, i < j → attemptTransient cfg env (0 + i) := by
      intro i hi
      rw [Nat.zero_add]
      exact hpre i hi
    have hok' : (uploadFileOnce cfg (env.attempts (0 + j))).result = .ok () := by
      rwa [Nat.zero_add]
    obtain ⟨r1, r2⟩ := uploadLoop_success cfg env hnc j (cfg.retryAttempts + 1) 0 ""
      (by omega) hpre' hok'
    exact ⟨by rw [p1, r1], by rw [p2, r2]⟩

/-- C2, witness: three attempts and an error mentioning "3" against a
server that always answers 500 with `retryAttempts = 2`; immediate
success when the server answers 200. -/
theorem c2_witness :
    ((uploadFile (cfgR 2) (steadyEnv (onceWithResp [7] resp500))).attemptsMade = 3 ∧
      ∃ m, (uploadFile (cfgR 2) (steadyEnv (onceWithResp [7] resp500))).result = .error m ∧
        hasSub "3" m = true) ∧
    ((uploadFile (cfgR 2) (steadyEnv (onceWithResp [7] okResp))).result = .ok () ∧
      (uploadFile (cfgR 2) (steadyEnv (onceWithResp [7] okResp))).attemptsMade = 1) :=
  ⟨(c2_retry_behavior (cfgR 2) (steadyEnv (onceWithResp [7] resp500)) rfl (fun _ => rfl)).1
      (fun _ => ⟨serverErrMsg resp500, rfl, by decide⟩),
    (c2_retry_behavior (cfgR 2) (steadyEnv (onceWithResp [7] okResp)) rfl (fun _ => rfl)).2
      0 (by omega) (fun i hi => absurd hi (by omega)) rfl⟩

/-- C3, counterexample: with `retryAttempts = 2`, a permanent failure on
the first attempt stops the loop after exactly one attempt, yet the final
error says "после 3 попыток" — it names the configured budget (3), and
the digit "1" (the number of attempts actually made) appears nowhere in
it. -/
theorem c3_counterexample :
    (uploadFile (cfgR 2) zeroFileEnv).attemptsMade = 1 ∧
    (uploadFile (cfgR 2) zeroFileEnv).result =
      .error (exhaustedMsg (cfgR 2) "файл пустой") ∧
    hasSub "1" (exhaustedMsg (cfgR 2) "файл пустой") = false ∧
    hasSub "3" (exhaustedMsg (cfgR 2) "файл пустой") = true :=
  ⟨by decide, rfl, by decide, by decide⟩

/-- C3 (amended): for every failing `UploadFile` call with no
cancellation, the final error wraps (contains verbatim) the cause of the
last attempt actually made, but the attempt count it states is the
configured budget `retryAttempts + 1`, not the number of attempts
actually made (which can be smaller when a permanent classification stops
the loop early). -/
theorem c3_error_wraps_last_cause (cfg : ClientConfig) (env : UploadEnv)
    (hacq : env.cancelAtAcquire = false)
    (hnc : ∀ j, env.cancelAtDelay j = false)
    (hfail : ∀ i, attemptFails cfg env i) :
    1 ≤ (uploadFile cfg env).attemptsMade ∧
    (uploadFile cfg env).attemptsMade ≤ cfg.retryAttempts + 1 ∧
    (uploadFile cfg env).result =
      .error (exhaustedMsg cfg
        (attemptErr cfg env ((uploadFile cfg env).attemptsMade - 1))) ∧
    hasSub (attemptErr cfg env ((uploadFile cfg env).attemptsMade - 1))
      (exhaustedMsg cfg
        (attemptErr cfg env ((uploadFile cfg env).attemptsMade - 1))) = true ∧
    hasSub (toString (cfg.retryAttempts + 1))
      (exhaustedMsg cfg
        (attemptErr cfg env ((uploadFile cfg env).attemptsMade - 1))) = true := by
  obtain ⟨p1, p2, _, _⟩ := uploadFile_proj cfg env hacq
  obtain ⟨hb1, _, hb3, hb4⟩ :=
    uploadLoop_all_fail cfg env hnc hfail (cfg.retryAttempts + 1) 0 ""
  have hpos : 0 < (uploadLoop cfg env 0 (cfg.retryAttempts + 1) "").attemptsMade :=
    hb4 (by omega)
  refine ⟨by rw [p2]; omega, by rw [p2]; omega, ?_, exhaustedMsg_wraps cfg _,
    exhaustedMsg_mentions cfg _⟩
  have h3 := hb3 hpos
  rw [Nat.zero_add] at h3
  rw [p1, p2]
  exact h3

/-- C3, witness for the amended theorem at a concrete permanent-failure
run (`retryAttempts = 2`, zero-byte file, one attempt made). -/
theorem c3_witness :
    1 ≤ (uploadFile (cfgR 2) zeroFileEnv).attemptsMade ∧
    (uploadFile (cfgR 2) zeroFileEnv).attemptsMade ≤ (cfgR 2).retryAttempts + 1 ∧
    (uploadFile (cfgR 2) zeroFileEnv).result =
      .error (exhaustedMsg (cfgR 2) (attemptErr (cfgR 2) zeroFileEnv
        ((uploadFile (cfgR 2) zeroFileEnv).attemptsMade - 1))) ∧
    hasSub (attemptErr (cfgR 2) zeroFileEnv
        ((uploadFile (cfgR 2) zeroFileEnv).attemptsMade - 1))
      (exhaustedMsg (cfgR 2) (attemptErr (cfgR 2) zeroFileEnv
        ((uploadFile (cfgR 2) zeroFileEnv).attemptsMade - 1))) = true ∧
    hasSub (toString ((cfgR 2).retryAttempts + 1))
      (exhaustedMsg (cfgR 2) (attemptErr (cfgR 2) zeroFileEnv
        ((uploadFile (cfgR 2) zeroFileEnv).attemptsMade - 1))) = true :=
  c3_error_wraps_last_cause (cfgR 2) zeroFileEnv rfl (fun _ => rfl)
    (fun _ => ⟨"файл пустой", rfl⟩)

/-- C4: an attempt that reaches the HTTP round trip (open, stat, nonzero
size, request build and `Do` all succeed) returns success exactly when
the producer completed without error AND the response status is 200; in
particular a producer failure makes the attempt fail even on a 200. -/
theorem c4_attempt_success_iff (cfg : ClientConfig) (env : OnceEnv)
    (contents : List Nat) (resp : Resp)
    (hopen : env.openRes = .ok contents) (hstat : env.statErr = none)
    (hne : contents.length ≠ 0) (hreq : env.reqErr = none)
    (hdo : env.doRes = .ok resp) :
    ((uploadFileOnce cfg env).result = .ok () ↔
      ((runProducer cfg env contents).1 = none ∧ resp.status = 200)) ∧
    ((runProducer cfg env contents).1 ≠ none →
      (uploadFileOnce cfg env).result ≠ .ok ()) := by
  have hmain : (uploadFileOnce cfg env).result = .ok () ↔
      ((runProducer cfg env contents).1 = none ∧ resp.status = 200) := by
    rcases hpr : (runProducer cfg env contents).1 with _ | w
    · by_cases hs : resp.status = 200
      · simp [uploadFileOnce, hopen, hstat, hne, hreq, hdo, hpr, hs]
      · simp [uploadFileOnce, hopen, hstat, hne, hreq, hdo, hpr, hs]
    · simp [uploadFileOnce, hopen, hstat, hne, hreq, hdo, hpr]
  refine ⟨hmain, ?_⟩
  intro hbad hok
  exact hbad (hmain.mp hok).1

/-- C4, witness at a clean single-chunk attempt with a 200 response. -/
theorem c4_witness :
    (((uploadFileOnce (cfgR 0) (onceWithResp [7] okResp)).result = .ok () ↔
      ((runProducer (cfgR 0) (onceWithResp [7] okResp) [7]).1 = none ∧
        okResp.status = 200)) ∧
    ((runProducer (cfgR 0) (onceWithResp [7] okResp) [7]).1 ≠ none →
      (uploadFileOnce (cfgR 0) (onceWithResp [7] okResp)).result ≠ .ok ())) :=
  c4_attempt_success_iff (cfgR 0) (onceWithResp [7] okResp) [7] okResp
    rfl rfl (by decide) rfl rfl

/-- C5, counterexample: `retryAttempts = 0`; cancellation is observed by
the producer during the only attempt (the server still answers 200). The
attempt surfaces `context canceled`, the classifier calls it transient,
and the loop — out of attempts — reports it through the retry-exhaustion
wrapper, not as the bare cancellation error the claim requires. -/
theorem c5_counterexample :
    ((steadyEnv cancelOnce).attempts 0).producer.cancelAt 0 = true ∧
    (uploadFile (cfgR 0) (steadyEnv cancelOnce)).result =
      .error (exhaustedMsg (cfgR 0) ctxCanceledMsg) ∧
    exhaustedMsg (cfgR 0) ctxCanceledMsg ≠ ctxCanceledMsg ∧
    hasSub "попыток" (exhaustedMsg (cfgR 0) ctxCanceledMsg) = true ∧
    isPermanentError ctxCanceledMsg = false :=
  ⟨rfl, rfl, by decide, by decide, by decide⟩

/-- C5 (amended): cancellation observed at the semaphore acquire, or at an
inter-attempt delay (after transient failures with no earlier
cancellation), returns the raw cancellation error — distinct from both the
permanent classification and the exhaustion wrapper — and no further
attempt starts; but cancellation surfaced from inside the final attempt is
reported through the retry-exhaustion wrapper (see the counterexample). -/
theorem c5_cancellation (cfg : ClientConfig) (env : UploadEnv) :
    (env.cancelAtAcquire = true →
      (uploadFile cfg env).result = .error ctxCanceledMsg ∧
      (uploadFile cfg env).slotAcquired = false ∧
      (uploadFile cfg env).attemptsMade = 0) ∧
    (∀ j, env.cancelAtAcquire = false → 1 ≤ j → j ≤ cfg.retryAttempts →
      (∀ i, i < j →
        env.cancelAtDelay i = false ∧ attemptTransient cfg env i) →
      env.cancelAtDelay j = true →
      (uploadFile cfg env).result = .error ctxCanceledMsg ∧
      (uploadFile cfg env).attemptsMade = j) := by
  constructor
  · intro h
    refine ⟨?_, ?_, ?_⟩ <;> simp [uploadFile, h]
  · intro j hacq hj1 hj2 hpre hcan
    obtain ⟨p1, p2, _, _⟩ := uploadFile_proj cfg env hacq
    have hpre' : ∀ i, i < j →
        env.cancelAtDelay (0 + i) = false ∧ attemptTransient cfg env (0 + i) := by
      intro i hi
      rw [Nat.zero_add]
      exact hpre i hi
    have hcan' : env.cancelAtDelay (0 + j) = true := by rwa [Nat.zero_add]
    obtain ⟨r1, r2⟩ := uploadLoop_cancel cfg env j (cfg.retryAttempts + 1) 0 ""
      (by omega) (by omega) hpre' hcan'
    exact ⟨by rw [p1, r1], by rw [p2, r2]⟩

/-- C5, witness: cancellation at the semaphore acquire returns the raw
cancellation error without consuming a slot; cancellation at the delay
before attempt 1 (after a transient 500) returns the raw cancellation
error with exactly one attempt made. -/
theorem c5_witness :
    ((uploadFile (cfgR 2) cancelAcqEnv).result = .error ctxCanceledMsg ∧
      (uploadFile (cfgR 2) cancelAcqEnv).slotAcquired = false ∧
      (uploadFile (cfgR 2) cancelAcqEnv).attemptsMade = 0) ∧
    ((uploadFile (cfgR 2) cancelDelayEnv).result = .error ctxCanceledMsg ∧
      (uploadFile (cfgR 2) cancelDelayEnv).attemptsMade = 1) :=
  ⟨(c5_cancellation (cfgR 2) cancelAcqEnv).1 rfl,
    (c5_cancellation (cfgR 2) cancelDelayEnv).2 1 rfl (by omega) (by decide)
      (fun i hi => by
        have hz : i = 0 := by omega
        subst hz
        exact ⟨rfl, ⟨serverErrMsg resp500, rfl, by decide⟩⟩)
      rfl⟩

/-- C6: a clean successful attempt on a nonempty file emits one progress
event per chunk with cumulative byte counts, every event carries the
file's size as total and the percentage `bytes/total*100`, and the last
event reports exactly the file size at 100%. -/
theorem c6_progress (cfg : ClientConfig) (env : OnceEnv)
    (contents : List Nat) (resp : Resp)
    (hb : 0 < cfg.bufferSize) (hne : contents ≠ [])
    (hopen : env.openRes = .ok contents) (hstat : env.statErr = none)
    (hform : env.createFormErr = none)
    (hc : ∀ i, env.producer.cancelAt i = false)
    (hr : ∀ i, env.producer.readErr i = none)
    (hw : ∀ i, env.producer.writeErr i = none)
    (hreq : env.reqErr = none) (hdo : env.doRes = .ok resp)
    (hs : resp.status = 200) :
    (uploadFileOnce cfg env).result = .ok () ∧
    (uploadFileOnce cfg env).events.map ProgressEvent.bytesTransferred =
      cumSums 0 ((toChunks cfg.bufferSize contents).map List.length) ∧
    (∀ e ∈ (uploadFileOnce cfg env).events,
      e.totalBytes = contents.length ∧
      e.percentage = (e.bytesTransferred : ℚ) / (contents.length : ℚ) * 100) ∧
    ∃ last, (uploadFileOnce cfg env).events.getLast? = some last ∧
      last.bytesTransferred = contents.length ∧ last.percentage = 100 := by
  have hne' : contents.length ≠ 0 := fun h => hne (List.length_eq_zero.mp h)
  have hclean := producerLoop_clean env.producer contents.length hc hr hw
    (toChunks cfg.bufferSize contents) 0 0
  have hprod : runProducer cfg env contents =
      (none, cumEvents contents.length (toChunks cfg.bufferSize contents) 0) := by
    simp [runProducer, hform, hclean]
  have hout_res : (uploadFileOnce cfg env).result = .ok () := by
    simp [uploadFileOnce, hopen, hstat, hne', hreq, hdo, hprod, hs]
  have hout_ev : (uploadFileOnce cfg env).events =
      cumEvents contents.length (toChunks cfg.bufferSize contents) 0 := by
    simp [uploadFileOnce, hopen, hstat, hne', hreq, hdo, hprod, hs]
  refine ⟨hout_res, ?_, ?_, ?_⟩
  · rw [hout_ev]
    exact cumEvents_bytes contents.length _ 0
  · rw [hout_ev]
    intro e he
    exact cumEvents_mem contents.length _ 0 e he
  · rw [hout_ev]
    have hchunks := toChunks_ne_nil cfg.bufferSize contents hb hne
    obtain ⟨ev, h1, h2, _, h4⟩ :=
      cumEvents_getLast contents.length (toChunks cfg.bufferSize contents) 0 hchunks
    have hsum : ((toChunks cfg.bufferSize contents).map List.length).sum =
        contents.length := by
      rw [← flatChunks_length, toChunks_flat cfg.bufferSize contents hb]
    have hq : (contents.length : ℚ) ≠ 0 := Nat.cast_ne_zero.mpr hne'
    refine ⟨ev, h1, by rw [h2, hsum]; omega, ?_⟩
    rw [h4, Nat.zero_add, hsum, div_self hq, one_mul]

/-- C6, witness: a 3-byte file with a 2-byte buffer reports cumulative
bytes 2 then 3 and finishes at exactly the file size and 100%. -/
theorem c6_witness :
    (uploadFileOnce cfgB2 (onceWithResp [7, 8, 9] okResp)).result = .ok () ∧
    (uploadFileOnce cfgB2 (onceWithResp [7, 8, 9] okResp)).events.map
        ProgressEvent.bytesTransferred =
      cumSums 0 ((toChunks cfgB2.bufferSize [7, 8, 9]).map List.length) ∧
    (∀ e ∈ (uploadFileOnce cfgB2 (onceWithResp [7, 8, 9] okResp)).events,
      e.totalBytes = ([7, 8, 9] : List Nat).length ∧
      e.percentage = (e.bytesTransferred : ℚ) / (([7, 8, 9] : List Nat).length : ℚ) * 100) ∧
    ∃ last,
      (uploadFileOnce cfgB2 (onceWithResp [7, 8, 9] okResp)).events.getLast? = some last ∧
      last.bytesTransferred = ([7, 8, 9] : List Nat).length ∧ last.percentage = 100 :=
  c6_progress cfgB2 (onceWithResp [7, 8, 9] okResp) [7, 8, 9] okResp
    (by decide) (by decide) rfl rfl rfl (fun _ => rfl) (fun _ => rfl) (fun _ => rfl)
    rfl rfl rfl

/-- C7: for a nonempty batch, `UploadMultipleFiles` succeeds exactly when
every file's own upload succeeds, and every failing file contributes its
path together with its cause to the one composite error — a sibling's
failure never erases another file's outcome from the result. -/
theorem c7_batch_aggregation (outcome : String → Except String Unit)
    (files : List String) (hne : files ≠ []) :
    (uploadMultipleFiles outcome files = .ok () ↔
      ∀ f ∈ files, outcome f = .ok ()) ∧
    (∀ f ∈ files, ∀ e, outcome f = .error e →
      ∃ m, uploadMultipleFiles outcome files = .error m ∧
        hasSub ("ошибка загрузки файла " ++ f ++ ": " ++ e) m = true) := by
  have hemp : files.isEmpty = false := List.isEmpty_eq_false.mpr hne
  constructor
  · unfold uploadMultipleFiles
    rw [hemp]
    simp only [Bool.false_eq_true, if_false]
    by_cases he : (files.filterMap (fun f =>
        match outcome f with
        | .error e => some ("ошибка загрузки файла " ++ f ++ ": " ++ e)
        | .ok _ => none)).isEmpty
    · rw [he]
      simp only [if_true]
      constructor
      · intro _ f hf
        have hall := List.filterMap_eq_nil_iff.mp (List.isEmpty_iff.mp he) f hf
        cases hout : outcome f with
        | ok u => cases u; rfl
        | error e => rw [hout] at hall; exact absurd hall (by simp)
      · intro _
        trivial
    · have he' : (files.filterMap (fun f =>
          match outcome f with
          | .error e => some ("ошибка загрузки файла " ++ f ++ ": " ++ e)
          | .ok _ => none)).isEmpty = false := by
        cases h : (files.filterMap _).isEmpty
        · rfl
        · exact absurd h he
      rw [he']
      simp only [Bool.false_eq_true, if_false]
      constructor
      · intro h; exact absurd h (by simp)
      · intro hall
        exfalso
        apply he
        rw [List.isEmpty_iff, List.filterMap_eq_nil_iff]
        intro f hf
        rw [hall f hf]
  · intro f hf e hout
    have hm : ("ошибка загрузки файла " ++ f ++ ": " ++ e) ∈
        files.filterMap (fun f =>
          match outcome f with
          | .error e => some ("ошибка загрузки файла " ++ f ++ ": " ++ e)
          | .ok _ => none) :=
      List.mem_filterMap.mpr ⟨f, hf, by rw [hout]⟩
    have hne2 : (files.filterMap (fun f =>
        match outcome f with
        | .error e => some ("ошибка загрузки файла " ++ f ++ ": " ++ e)
        | .ok _ => none)).isEmpty = false :=
      List.isEmpty_eq_false.mpr (List.ne_nil_of_mem hm)
    refine ⟨"ошибки при загрузке файлов: " ++ goJoin "; "
      (files.filterMap (fun f =>
        match outcome f with
        | .error e => some ("ошибка загрузки файла " ++ f ++ ": " ++ e)
        | .ok _ => none)), ?_, ?_⟩
    · unfold uploadMultipleFiles
      simp only [hemp, hne2, Bool.false_eq_true, if_false]
    · rw [hasSub_iff]
      simp only [String.data_append]
      exact (goJoin_mem "; " _ _ hm).trans (List.suffix_append _ _).isInfix

/-- C7, witness: a batch of two files in which exactly `a.bin` fails
yields a composite error naming `a.bin` with its cause, and the batch is
not a success. -/
theorem c7_witness :
    ((uploadMultipleFiles batchOutcomeW ["a.bin", "b.bin"] = .ok () ↔
      ∀ f ∈ ["a.bin", "b.bin"], batchOutcomeW f = .ok ()) ∧
    (∃ m, uploadMultipleFiles batchOutcomeW ["a.bin", "b.bin"] = .error m ∧
      hasSub ("ошибка загрузки файла " ++ "a.bin" ++ ": " ++ "boom") m = true)) :=
  ⟨(c7_batch_aggregation batchOutcomeW ["a.bin", "b.bin"] (by decide)).1,
    (c7_batch_aggregation batchOutcomeW ["a.bin", "b.bin"] (by decide)).2
      "a.bin" (by decide) "boom" rfl⟩

/-- C8: the receiving handler answers 405 to non-POST, 400 to a request
whose multipart form fails to parse or lacks the `file` field, 500 on a
mid-stream read or write failure — leaving the partially written
destination file in place (a prefix of the streamed content, never
cleaned up) — and 200 with a confirmation body on success. -/
theorem c8_handler (req : ServerReq) :
    (req.method ≠ "POST" → (handleUpload req).status = 405) ∧
    (∀ m, req.method = "POST" → req.parseErr = some m →
      (handleUpload req).status = 400) ∧
    (∀ m, req.method = "POST" → req.parseErr = none → req.formFile = .error m →
      (handleUpload req).status = 400) ∧
    (∀ part, req.method = "POST" → req.parseErr = none →
      req.formFile = .ok part → req.mkdirErr = none → req.createErr = none →
      (serverCopyLoop req.readErr req.writeErr
        (toChunks serverChunkSize part.content) 0).err ≠ none →
      (handleUpload req).status = 500 ∧
      (handleUpload req).fileCreated = true ∧
      (handleUpload req).written <+: part.content) ∧
    (∀ part, req.method = "POST" → req.parseErr = none →
      req.formFile = .ok part → req.mkdirErr = none → req.createErr = none →
      (∀ i, req.readErr i = none) → (∀ i, req.writeErr i = none) →
      (handleUpload req).status = 200 ∧
      (handleUpload req).body = "Файл " ++ part.filename ++ " успешно загружен" ∧
      (handleUpload req).written = part.content) := by
  refine ⟨?_, ?_, ?_, ?_, ?_⟩
  · intro h
    simp [handleUpload, h]
  · intro m hm hp
    simp [handleUpload, hm, hp]
  · intro m hm hp hff
    simp [handleUpload, hm, hp, hff]
  · intro part hm hp hff hmk hcr hcp
    rcases hcperr : (serverCopyLoop req.readErr req.writeErr
        (toChunks serverChunkSize part.content) 0).err with _ | m
    · exact absurd hcperr hcp
    · have h1 : (handleUpload req).status = 500 := by
        simp [handleUpload, hm, hp, hff, hmk, hcr, hcperr]
      have h2 : (handleUpload req).fileCreated = true := by
        simp [handleUpload, hm, hp, hff, hmk, hcr, hcperr]
      have h3 : (handleUpload req).written = (serverCopyLoop req.readErr
          req.writeErr (toChunks serverChunkSize part.content) 0).written := by
        simp [handleUpload, hm, hp, hff, hmk, hcr, hcperr]
      refine ⟨h1, h2, ?_⟩
      rw [h3]
      have := serverCopyLoop_written_prefixOf req.readErr req.writeErr
        (toChunks serverChunkSize part.content) 0
      rwa [toChunks_flat serverChunkSize part.content (by decide)] at this
  · intro part hm hp hff hmk hcr hre hwe
    have hclean := serverCopyLoop_clean req.readErr req.writeErr hre hwe
      (toChunks serverChunkSize part.content) 0
    have hflat := toChunks_flat serverChunkSize part.content (by decide)
    refine ⟨?_, ?_, ?_⟩ <;>
      simp [handleUpload, hm, hp, hff, hmk, hcr, hclean, hflat]

/-- C8, witness: concrete requests exercising the 405, both 400 paths,
the mid-stream 500 with a partial file left in place, and the 200
success. -/
theorem c8_witness :
    (handleUpload reqGet).status = 405 ∧
    (handleUpload reqBadParse).status = 400 ∧
    (handleUpload reqNoField).status = 400 ∧
    ((handleUpload reqWriteFail).status = 500 ∧
      (handleUpload reqWriteFail).fileCreated = true ∧
      (handleUpload reqWriteFail).written <+: partW.content) ∧
    ((handleUpload reqPostOk).status = 200 ∧
      (handleUpload reqPostOk).body =
        "Файл " ++ partW.filename ++ " успешно загружен" ∧
      (handleUpload reqPostOk).written = partW.content) :=
  ⟨(c8_handler reqGet).1 (by decide),
    (c8_handler reqBadParse).2.1 "unexpected EOF" rfl rfl,
    (c8_handler reqNoField).2.2.1 "http: no such file" rfl rfl rfl,
    (c8_handler reqWriteFail).2.2.2.1 partW rfl rfl rfl rfl rfl (by decide),
    (c8_handler reqPostOk).2.2.2.2 partW rfl rfl rfl rfl rfl
      (fun _ => rfl) (fun _ => rfl)⟩

/-- C9: the error built for a non-2xx response embeds the server's body;
with a 500 whose body contains the permanent marker `файл пустой`, the
substring classifier calls the attempt error permanent, so the client
makes exactly one attempt under `retryAttempts = 2` — the transiently
classified situation of the spec's taxonomy is not retried. -/
theorem c9_body_marker_not_retried :
    respMarkerBody.status ≠ 200 ∧
    hasSub "файл пустой" respMarkerBody.body = true ∧
    (uploadFileOnce (cfgR 2) (onceWithResp [7] respMarkerBody)).result =
      .error (serverErrMsg respMarkerBody) ∧
    isPermanentError (serverErrMsg respMarkerBody) = true ∧
    (cfgR 2).retryAttempts = 2 ∧
    (uploadFile (cfgR 2) (steadyEnv (onceWithResp [7] respMarkerBody))).attemptsMade = 1 ∧
    (uploadFile (cfgR 2) (steadyEnv (onceWithResp [7] respMarkerBody))).result =
      .error (exhaustedMsg (cfgR 2) (serverErrMsg respMarkerBody)) :=
  ⟨by decide, by decide, rfl, by decide, rfl, by decide, rfl⟩

/-- C10: in any interleaving of acquires and releases of one client's
semaphore starting from `n` sessions none of which holds a slot, the
number of sessions simultaneously holding a slot never exceeds the
capacity `maxConcurrency`. -/
theorem c10_slot_bound (cap n : Nat) (ps : List Phase)
    (h : SemReach cap (List.replicate n Phase.waiting) ps) :
    holdingCount ps ≤ cap := by
  induction h with
  | refl =>
    rw [holdingCount_replicate_waiting]
    omega
  | step hr hs ih =>
    cases hs with
    | acquire i hi hc =>
      rw [holdingCount_set_holding _ i hi]
      omega
    | release i hi =>
      have := holdingCount_set_done _ i hi
      omega

/-- C10, witness: three sessions, capacity two, two acquires performed —
a concrete reachable state whose holding count is within the bound. -/
theorem c10_witness :
    holdingCount (((List.replicate 3 Phase.waiting).set 0 Phase.holding).set 1
      Phase.holding) ≤ 2 :=
  c10_slot_bound 2 3 _
    (SemReach.step
      (SemReach.step SemReach.refl
        (SemStep.acquire _ 0 (by decide) (by decide)))
      (SemStep.acquire _ 1 (by decide) (by decide)))
